import Mathlib

/-
  Verification development for the MusicApp audio playback engine
  (src/MusicApp.c, src/const.h).

  The C code is shallowly embedded: 16-bit PCM samples are modelled as
  Int (the C `short` values always lie in [-32768, 32767]); C `double`
  and `float` arithmetic is modelled exactly over ℚ (or ℝ where square
  roots occur); C arrays are modelled as total functions or lists;
  C `%` on possibly-negative ints is `Int.tmod` (truncated remainder,
  matching C semantics), and arithmetic right shift of a nonnegative-
  divisor power of two is `Int.fdiv` (floor division).
-/

namespace MusicApp

/-- Clamp an integer to the int16 range, mirroring the C pattern
`if (x > 32767) x = 32767; else if (x < -32768) x = -32768;`. -/
def clamp16 (x : Int) : Int :=
  if x > 32767 then 32767 else if x < -32768 then -32768 else x

/-- C `round()` / `roundf()`: round half away from zero. -/
def roundQ (q : ℚ) : Int :=
  if q ≥ 0 then ⌊q + 1/2⌋ else ⌈q - 1/2⌉

/-- C cast to `short` (gcc semantics): wrap modulo 2^16 into [-32768, 32767]. -/
def wrap16 (x : Int) : Int :=
  (x + 32768) % 65536 - 32768

theorem roundQ_intCast (n : Int) : roundQ (n : ℚ) = n := by
  unfold roundQ
  by_cases h : (n : ℚ) ≥ 0
  · rw [if_pos h, Int.floor_eq_iff]
    constructor <;> linarith
  · rw [if_neg h, Int.ceil_eq_iff]
    constructor <;> linarith

theorem clamp16_of_range (x : Int) (h1 : -32768 ≤ x) (h2 : x ≤ 32767) :
    clamp16 x = x := by
  unfold clamp16
  rw [if_neg (by omega), if_neg (by omega)]

/-! Section: FIR equalizer (src/MusicApp.c `apply_fir_filter`, src/const.h presets)

The C filter state is the global `fir_history` array together with the
circular index `fir_filter_history_idx`.  Coefficient tables are C
`double[64]` arrays (entries beyond the initializer are zero), modelled
as total functions `Nat → ℚ`; the listed preset coefficients are all
exactly representable. -/

/-- Source `MAX_FIR_TAPS` from src/const.h. -/
def MAX_FIR_TAPS : Nat := 64

/-- Source `FIRFilter` from src/const.h (name field omitted; it never affects
processing). -/
structure FIRFilter where
  coeffs : Nat → ℚ
  num_taps : Nat

/-- Source `FIR_NORMAL` preset: `coeffs = {1.0}`, `num_taps = 1`. -/
def FIR_NORMAL : FIRFilter :=
  ⟨fun j => if j = 0 then 1 else 0, 1⟩

/-- Source `FIR_BASS_BOOST` preset: `coeffs = {0.4, 0.3, 0.2, 0.1, 0.05}`, 5 taps. -/
def FIR_BASS_BOOST : FIRFilter :=
  ⟨fun j =>
    if j = 0 then 2/5 else if j = 1 then 3/10 else if j = 2 then 1/5
    else if j = 3 then 1/10 else if j = 4 then 1/20 else 0, 5⟩

/-- Source `FIR_TREBLE_BOOST` preset: `coeffs = {0.5, -0.5}`, 2 taps. -/
def FIR_TREBLE_BOOST : FIRFilter :=
  ⟨fun j => if j = 0 then 1/2 else if j = 1 then -(1/2) else 0, 2⟩

/-- The global FIR history line: `fir_history` array plus
`fir_filter_history_idx`. -/
structure FIRHist where
  hist : Nat → Int
  idx : Nat

/-- Source `initialize_fir_history`: zeroed history, index 0. -/
def zeroFirHist : FIRHist := ⟨fun _ => 0, 0⟩

/-- Convolution sum for one sample (the `filtered_sample` accumulation
in `apply_fir_filter`): `x * coeffs[0]` plus, for j = 1 .. num_taps-1,
`fir_history[(idx - j + hl) % hl] * coeffs[j]` where `hl = num_taps - 1`.
In C the index `idx - j + hl` is computed in int arithmetic and is
nonnegative (j ≤ hl), so `(st.idx + hl - j) % hl` agrees with it. -/
def firTapSum (f : FIRFilter) (st : FIRHist) (x : Int) : ℚ :=
  (List.range f.num_taps).foldl
    (fun acc j =>
      acc + (if j = 0 then (x : ℚ) * f.coeffs 0
             else (st.hist ((st.idx + (f.num_taps - 1) - j) % (f.num_taps - 1)) : ℚ)
                    * f.coeffs j))
    0

/-- Clamp the accumulated double to [-32768.0, 32767.0] as the C code
does before rounding. -/
def clampQ (q : ℚ) : ℚ :=
  if q > 32767 then 32767 else if q < -32768 then -32768 else q

/-- Per-sample body of the `apply_fir_filter` loop: produce the output
sample and push the input sample into the circular history (when the
history length `num_taps - 1` is positive). -/
def firStep (f : FIRFilter) (st : FIRHist) (x : Int) : Int × FIRHist :=
  (roundQ (clampQ (firTapSum f st x)),
   if f.num_taps - 1 = 0 then st
   else ⟨fun i => if i = st.idx then x else st.hist i,
         (st.idx + 1) % (f.num_taps - 1)⟩)

/-- The sample loop of `apply_fir_filter` (the valid-filter path). -/
def firRun (f : FIRFilter) : List Int → FIRHist → List Int × FIRHist
  | [], st => ([], st)
  | x :: xs, st =>
    ((firStep f st x).1 :: (firRun f xs (firStep f st x).2).1,
     (firRun f xs (firStep f st x).2).2)

/-- Source `apply_fir_filter`: an invalid filter (0 taps or more than
`MAX_FIR_TAPS`) passes the input through unchanged; otherwise the
sample loop runs. -/
def apply_fir_filter (input : List Int) (f : FIRFilter) (st : FIRHist) :
    List Int × FIRHist :=
  if f.num_taps = 0 ∨ f.num_taps > MAX_FIR_TAPS then (input, st)
  else firRun f input st

theorem firStep_normal (st : FIRHist) (x : Int)
    (h1 : -32768 ≤ x) (h2 : x ≤ 32767) :
    firStep FIR_NORMAL st x = (x, st) := by
  have hc : clampQ (x : ℚ) = (x : ℚ) := by
    unfold clampQ
    rw [if_neg (by exact_mod_cast not_lt.mpr h2),
        if_neg (by exact_mod_cast not_lt.mpr h1)]
  unfold firStep firTapSum FIR_NORMAL
  norm_num [List.range_succ, hc, roundQ_intCast]

/-- C7: with the "Normal" preset (`num_taps = 1`, `coeffs[0] = 1.0`),
`apply_fir_filter` reproduces its input exactly, sample for sample, for
every input block and every prior history state. -/
theorem c7_fir_normal_identity (input : List Int) (st : FIRHist)
    (hr : ∀ x ∈ input, -32768 ≤ x ∧ x ≤ 32767) :
    (apply_fir_filter input FIR_NORMAL st).1 = input := by
  have hrun : ∀ (l : List Int) (s : FIRHist),
      (∀ x ∈ l, -32768 ≤ x ∧ x ≤ 32767) → (firRun FIR_NORMAL l s).1 = l := by
    intro l
    induction l with
    | nil => intro s _; rfl
    | cons x xs ih =>
      intro s hx
      have hx0 := hx x (List.mem_cons_self x xs)
      unfold firRun
      rw [firStep_normal s x hx0.1 hx0.2]
      simp only
      rw [ih s (fun y hy => hx y (List.mem_cons_of_mem x hy))]
  unfold apply_fir_filter
  rw [if_neg (by norm_num [FIR_NORMAL, MAX_FIR_TAPS])]
  exact hrun input st hr

/-- Witness for C7 at a concrete block and a concrete nonzero history. -/
theorem c7_witness :
    (apply_fir_filter [5, -7, 32767, -32768] FIR_NORMAL ⟨fun _ => 3, 0⟩).1
      = [5, -7, 32767, -32768] :=
  c7_fir_normal_identity [5, -7, 32767, -32768] ⟨fun _ => 3, 0⟩
    (by intro x hx; fin_cases hx <;> norm_num)

theorem firStep_treble (s : FIRHist) (z : Int) :
    firStep FIR_TREBLE_BOOST s z =
      (roundQ (clampQ ((z : ℚ) * (1/2) + (s.hist 0 : ℚ) * (-(1/2)))),
       ⟨fun i => if i = s.idx then z else s.hist i, 0⟩) := by
  unfold firStep firTapSum FIR_TREBLE_BOOST
  norm_num [List.range_succ, Nat.mod_one]

/-- C8 (amended): `apply_fir_filter` keeps ONE shared history line for
all samples.  With the 2-tap treble preset, every output sample past the
first is `round(clamp(0.5·x[n] - 0.5·x[n-1]))` over the flat interleaved
sample stream — for interleaved stereo input, `x[n-1]` belongs to the
other channel, so the channels are not filtered independently. -/
theorem c8_fir_shared_history (xs : List Int) (st : FIRHist)
    (hidx : st.idx = 0) (n : Nat) (hn : n + 1 < xs.length) :
    ((apply_fir_filter xs FIR_TREBLE_BOOST st).1).getD (n+1) 0 =
      roundQ (clampQ ((xs.getD (n+1) 0 : ℚ) * (1/2)
                      + (xs.getD n 0 : ℚ) * (-(1/2)))) := by
  have key : ∀ (l : List Int) (s : FIRHist), s.idx = 0 →
      ∀ (m : Nat), m + 1 < l.length →
      ((firRun FIR_TREBLE_BOOST l s).1).getD (m+1) 0 =
        roundQ (clampQ ((l.getD (m+1) 0 : ℚ) * (1/2)
                        + (l.getD m 0 : ℚ) * (-(1/2)))) := by
    intro l
    induction l with
    | nil => intro s _ m hm; simp at hm
    | cons x rest ih =>
      intro s hs m hm
      unfold firRun
      rw [firStep_treble s x]
      simp only [List.getD_cons_succ]
      cases rest with
      | nil => simp at hm
      | cons z rest2 =>
        cases m with
        | zero =>
          unfold firRun
          rw [firStep_treble _ z]
          simp only [List.getD_cons_zero]
          have : (if (0 : Nat) = s.idx then x else s.hist 0) = x := by
            rw [hs]; simp
          simp only [this]
        | succ k =>
          have hk : k + 1 < (z :: rest2).length := by
            simpa using Nat.succ_lt_succ_iff.mp hm
          have := ih ⟨fun i => if i = s.idx then x else s.hist i, 0⟩ rfl k hk
          simpa using this
  unfold apply_fir_filter
  rw [if_neg (by norm_num [FIR_TREBLE_BOOST, MAX_FIR_TAPS])]
  exact key xs st hidx n hn

/-- Witness for C8's amended theorem at the concrete interleaved block
`[0, 100, 0, 0]` with zeroed history, at output index 2. -/
theorem c8_witness :
    ((apply_fir_filter [0, 100, 0, 0] FIR_TREBLE_BOOST zeroFirHist).1).getD 2 0 =
      roundQ (clampQ (((0 : Int) : ℚ) * (1/2) + ((100 : Int) : ℚ) * (-(1/2)))) := by
  have h := c8_fir_shared_history [0, 100, 0, 0] zeroFirHist rfl 1 (by norm_num)
  simpa using h

/-- C8 counterexample: two interleaved stereo blocks that agree on every
even-index (left-channel) sample but differ on an odd-index
(right-channel) sample produce different left-channel outputs under the
2-tap treble preset, so a channel's output does NOT depend only on that
channel's samples. -/
theorem c8_counterexample :
    ((apply_fir_filter [0, 100, 0, 0] FIR_TREBLE_BOOST zeroFirHist).1).getD 2 0 = -50
    ∧ ((apply_fir_filter [0, 0, 0, 0] FIR_TREBLE_BOOST zeroFirHist).1).getD 2 0 = 0
    ∧ [0, 100, 0, 0].getD 0 (0 : Int) = [0, 0, 0, 0].getD 0 (0 : Int)
    ∧ [0, 100, 0, 0].getD 2 (0 : Int) = [0, 0, 0, 0].getD 2 (0 : Int) := by
  refine ⟨?_, ?_, rfl, rfl⟩
  · unfold apply_fir_filter
    rw [if_neg (by norm_num [FIR_TREBLE_BOOST, MAX_FIR_TAPS])]
    simp only [firRun, firStep_treble, zeroFirHist, List.getD_cons_succ,
      List.getD_cons_zero]
    norm_num [roundQ, clampQ]
    rw [Int.ceil_eq_iff]
    norm_num
  · unfold apply_fir_filter
    rw [if_neg (by norm_num [FIR_TREBLE_BOOST, MAX_FIR_TAPS])]
    simp only [firRun, firStep_treble, zeroFirHist, List.getD_cons_succ,
      List.getD_cons_zero]
    norm_num [roundQ, clampQ]

/-! Section: High-pass filter at the device write stage (src/MusicApp.c main loop)

Just before `snd_pcm_writei`, when the stream is S16_LE mono, every
sample of the final ALSA payload is passed through a one-pole high-pass
filter with coefficient `HPF_ALPHA = 0.995`; the filter state
(`hpf_prev_input`, `hpf_prev_output`) is kept in globals that persist
across blocks. -/

/-- Source `HPF_ALPHA` from src/MusicApp.c (0.995f, exactly 199/200). -/
def HPF_ALPHA : ℚ := 199/200

/-- The persistent high-pass filter state (`hpf_prev_input`,
`hpf_prev_output`). -/
structure HPFState where
  prev_input : ℚ
  prev_output : ℚ
deriving DecidableEq

/-- One iteration of the HPF loop: `out = HPF_ALPHA * (prev_output + in
- prev_input)`, state updated, sample rounded then clamped to int16. -/
def hpf_step (s : HPFState) (x : Int) : Int × HPFState :=
  (clamp16 (roundQ (HPF_ALPHA * (s.prev_output + (x : ℚ) - s.prev_input))),
   ⟨(x : ℚ), HPF_ALPHA * (s.prev_output + (x : ℚ) - s.prev_input)⟩)

/-- The HPF loop over one ALSA payload. -/
def hpf_block : List Int → HPFState → List Int × HPFState
  | [], s => ([], s)
  | x :: xs, s =>
    ((hpf_step s x).1 :: (hpf_block xs (hpf_step s x).2).1,
     (hpf_block xs (hpf_step s x).2).2)

/-- The HPF state just before sample `n` of a block is processed. -/
def hpfStateAt (xs : List Int) (s : HPFState) : Nat → HPFState
  | 0 => s
  | n + 1 => (hpf_step (hpfStateAt xs s n) (xs.getD n 0)).2

/-- The device write stage preprocessing (src/MusicApp.c lines
1129-1144): when the format is S16_LE mono the payload is HPF-filtered
in place; otherwise it is written as is. -/
def deviceWritePayload (mono16 : Bool) (s : HPFState) (payload : List Int) :
    List Int × HPFState :=
  if mono16 then hpf_block payload s else (payload, s)

theorem hpf_block_length (xs : List Int) (s : HPFState) :
    (hpf_block xs s).1.length = xs.length := by
  induction xs generalizing s with
  | nil => rfl
  | cons x t ih => simpa [hpf_block] using ih (hpf_step s x).2

theorem hpf_block_getD (xs : List Int) (s : HPFState) (n : Nat)
    (hn : n < xs.length) :
    (hpf_block xs s).1.getD n 0 = (hpf_step (hpfStateAt xs s n) (xs.getD n 0)).1 := by
  induction xs generalizing s n with
  | nil => simp at hn
  | cons x t ih =>
    cases n with
    | zero => simp [hpf_block, hpfStateAt]
    | succ k =>
      have hk : k < t.length := by simpa using Nat.succ_lt_succ_iff.mp hn
      have hstate : ∀ m : Nat, hpfStateAt (x :: t) s (m + 1) =
          hpfStateAt t (hpf_step s x).2 m := by
        intro m
        induction m with
        | zero => rfl
        | succ j ihm =>
          calc hpfStateAt (x :: t) s (j + 2)
              = (hpf_step (hpfStateAt (x :: t) s (j + 1))
                  ((x :: t).getD (j + 1) 0)).2 := rfl
            _ = (hpf_step (hpfStateAt t (hpf_step s x).2 j) (t.getD j 0)).2 := by
                  rw [ihm]; rfl
            _ = hpfStateAt t (hpf_step s x).2 (j + 1) := rfl
      simp only [hpf_block, List.getD_cons_succ]
      rw [ih (hpf_step s x).2 k hk, hstate k]

/-- C10 (amended): whenever the stream is S16_LE mono, every sample of
the final payload is transformed by the one-pole HPF (alpha = 0.995,
state threaded across the whole block) before the device write: sample
`n` of the written data is `clamp(round(0.995 * (prev_out + x[n] -
prev_in)))` with the filter state accumulated over samples 0..n-1.  The
stage is independent of the speed factor and EQ preset (neither occurs
in it).  The written block can coincide with the input (e.g. silence
with zero state), so "never verbatim" does not hold — see the
counterexample. -/
theorem c10_hpf_applied (s : HPFState) (payload : List Int) (n : Nat)
    (hn : n < payload.length) :
    (deviceWritePayload true s payload).1.length = payload.length
    ∧ (deviceWritePayload true s payload).1.getD n 0 =
        clamp16 (roundQ (HPF_ALPHA *
          ((hpfStateAt payload s n).prev_output + (payload.getD n 0 : ℚ)
            - (hpfStateAt payload s n).prev_input))) := by
  constructor
  · simpa [deviceWritePayload] using hpf_block_length payload s
  · have h := hpf_block_getD payload s n hn
    simpa [deviceWritePayload, hpf_step] using h

/-- Witness for C10's amended theorem at a concrete block and state. -/
theorem c10_witness :
    (deviceWritePayload true ⟨0, 0⟩ [100, -200, 300]).1.length = 3
    ∧ (deviceWritePayload true ⟨0, 0⟩ [100, -200, 300]).1.getD 1 0 =
        clamp16 (roundQ (HPF_ALPHA *
          ((hpfStateAt [100, -200, 300] ⟨0, 0⟩ 1).prev_output + ((-200 : Int) : ℚ)
            - (hpfStateAt [100, -200, 300] ⟨0, 0⟩ 1).prev_input))) := by
  have h := c10_hpf_applied ⟨0, 0⟩ [100, -200, 300] 1 (by norm_num)
  simpa using h

/-- C10 counterexample: an all-zero mono block with zero HPF state is
written to the device verbatim (the HPF output equals its input), so the
device CAN receive the processed samples unmodified. -/
theorem c10_counterexample :
    (deviceWritePayload true ⟨0, 0⟩ [0, 0, 0]).1 = [0, 0, 0] := by
  have h0 : hpf_step ⟨0, 0⟩ 0 = (0, ⟨0, 0⟩) := by
    simp only [hpf_step]
    norm_num [HPF_ALPHA, roundQ, clamp16]
  simp [deviceWritePayload, hpf_block, h0]

/-! Section: Normalized cross-correlation
(src/MusicApp.c `calculate_normalized_cross_correlation`)

The C function works on two `short` arrays of a common length; the
double-precision arithmetic is modelled exactly over ℝ.  Arrays are
modelled as `Nat → Int` read on `[0, n)`. -/

/-- The element-wise identical-segments check of the C function. -/
def segIdenticalUpTo (n : Nat) (s1 s2 : Nat → Int) : Prop :=
  ∀ i < n, s1 i = s2 i

instance (n : Nat) (s1 s2 : Nat → Int) : Decidable (segIdenticalUpTo n s1 s2) :=
  Nat.decidableBallLT n _

/-- Source `mean1` / `mean2`: arithmetic mean of the first `n` samples. -/
noncomputable def segMean (n : Nat) (s : Nat → Int) : ℝ :=
  (∑ i in Finset.range n, (s i : ℝ)) / n

/-- The raw `energy` accumulated in the identical-segments branch. -/
noncomputable def rawEnergy (n : Nat) (s : Nat → Int) : ℝ :=
  ∑ i in Finset.range n, (s i : ℝ) * (s i : ℝ)

/-- Source `sum_s1_sq` / `sum_s2_sq`: mean-centered energy of a segment. -/
noncomputable def centeredSqSum (n : Nat) (s : Nat → Int) : ℝ :=
  ∑ i in Finset.range n, ((s i : ℝ) - segMean n s) * ((s i : ℝ) - segMean n s)

/-- Source `sum_s1s2`: mean-centered cross product of the two segments. -/
noncomputable def centeredProdSum (n : Nat) (s1 s2 : Nat → Int) : ℝ :=
  ∑ i in Finset.range n,
    ((s1 i : ℝ) - segMean n s1) * ((s2 i : ℝ) - segMean n s2)

/-- The clamp of `correlation` to `[-1, 1]`. -/
noncomputable def clampCorr (c : ℝ) : ℝ :=
  if c > 1 then 1 else if c < -1 then -1 else c

/-- The energy-imbalance penalty applied after clamping: if the ratio of
the smaller to the larger centered energy is below 0.3, scale the
correlation by the square root of the ratio. -/
noncomputable def nccPenalty (b c corr : ℝ) : ℝ :=
  if (if b < c then b / c else c / b) < 0.3 then
    corr * Real.sqrt (if b < c then b / c else c / b)
  else corr

/-- Source `calculate_normalized_cross_correlation` from src/MusicApp.c:
returns 0 for empty input; identical segments yield 0 (true silence:
raw energy below 100·n) or 0.9999; otherwise the mean-centered,
energy-normalized correlation with silence cutoff at centered energy
100, a tiny-denominator guard at 1e-9, clamping to `[-1, 1]`, and the
energy-imbalance penalty. -/
noncomputable def calculate_normalized_cross_correlation
    (n : Nat) (s1 s2 : Nat → Int) : ℝ :=
  if n = 0 then 0
  else if segIdenticalUpTo n s1 s2 then
    (if rawEnergy n s1 < 100 * n then 0 else 0.9999)
  else if centeredSqSum n s1 < 100 ∨ centeredSqSum n s2 < 100 then 0
  else if Real.sqrt (centeredSqSum n s1) * Real.sqrt (centeredSqSum n s2)
            < 1e-9 then 0
  else
    nccPenalty (centeredSqSum n s1) (centeredSqSum n s2)
      (clampCorr (centeredProdSum n s1 s2 /
        (Real.sqrt (centeredSqSum n s1) * Real.sqrt (centeredSqSum n s2))))

theorem clampCorr_bounds (c : ℝ) : -1 ≤ clampCorr c ∧ clampCorr c ≤ 1 := by
  unfold clampCorr
  split_ifs with h1 h2
  · norm_num
  · norm_num
  · constructor <;> linarith

theorem nccPenalty_bounds (b c corr : ℝ) (hb : 0 < b) (hc : 0 < c)
    (h1 : -1 ≤ corr) (h2 : corr ≤ 1) :
    -1 ≤ nccPenalty b c corr ∧ nccPenalty b c corr ≤ 1 := by
  have hratio0 : 0 ≤ (if b < c then b / c else c / b) := by
    split_ifs <;> positivity
  have hratio1 : (if b < c then b / c else c / b) ≤ 1 := by
    split_ifs with hbc
    · exact div_le_one_of_le₀ (le_of_lt hbc) (le_of_lt hc)
    · exact div_le_one_of_le₀ (not_lt.mp hbc) (le_of_lt hb)
  have hs0 : 0 ≤ Real.sqrt (if b < c then b / c else c / b) :=
    Real.sqrt_nonneg _
  have hs1 : Real.sqrt (if b < c then b / c else c / b) ≤ 1 :=
    Real.sqrt_le_one.mpr hratio1
  unfold nccPenalty
  set r := (if b < c then b / c else c / b) with hrdef
  split_ifs with hr
  · constructor
    · nlinarith [mul_nonneg (show (0:ℝ) ≤ 1 + corr by linarith) hs0]
    · nlinarith [mul_nonneg (show (0:ℝ) ≤ 1 - corr by linarith) hs0]
  · exact ⟨h1, h2⟩

/-- C4 (amended): for every pair of equal-length non-empty segments the
NCC lies in `[-1, 1]`; for non-identical segments it returns 0 whenever
either segment's mean-centered energy is below the silence threshold
100; and for two IDENTICAL segments it returns 0 when their raw energy
is below 100·n (identical silence — NOT a near-1 value), and 0.9999
(near 1 but not exactly 1) when they carry real energy. -/
theorem c4_ncc_range_and_silence (n : Nat) (s1 s2 : Nat → Int) (hn : 0 < n) :
    (-1 ≤ calculate_normalized_cross_correlation n s1 s2
      ∧ calculate_normalized_cross_correlation n s1 s2 ≤ 1)
    ∧ (¬ segIdenticalUpTo n s1 s2 →
        (centeredSqSum n s1 < 100 ∨ centeredSqSum n s2 < 100) →
        calculate_normalized_cross_correlation n s1 s2 = 0)
    ∧ (segIdenticalUpTo n s1 s2 → rawEnergy n s1 < 100 * n →
        calculate_normalized_cross_correlation n s1 s2 = 0)
    ∧ (segIdenticalUpTo n s1 s2 → ¬ rawEnergy n s1 < 100 * n →
        calculate_normalized_cross_correlation n s1 s2 = 0.9999) := by
  have hne : ¬ n = 0 := Nat.pos_iff_ne_zero.mp hn
  refine ⟨?_, ?_, ?_, ?_⟩
  · unfold calculate_normalized_cross_correlation
    rw [if_neg hne]
    split_ifs with hid hsil hlow hden
    · norm_num
    · norm_num
    · norm_num
    · norm_num
    · have hb : (100 : ℝ) ≤ centeredSqSum n s1 := not_lt.mp (by tauto)
      have hc : (100 : ℝ) ≤ centeredSqSum n s2 := not_lt.mp (by tauto)
      exact nccPenalty_bounds _ _ _ (by linarith) (by linarith)
        (clampCorr_bounds _).1 (clampCorr_bounds _).2
  · intro hid hsil
    unfold calculate_normalized_cross_correlation
    rw [if_neg hne, if_neg hid, if_pos hsil]
  · intro hid hsil
    unfold calculate_normalized_cross_correlation
    rw [if_neg hne, if_pos hid, if_pos hsil]
  · intro hid hsil
    unfold calculate_normalized_cross_correlation
    rw [if_neg hne, if_pos hid, if_neg hsil]

/-- Witness for C4's amended theorem at two concrete length-2 segments. -/
theorem c4_witness :
    (0 : Nat) < 2
    ∧ (-1 ≤ calculate_normalized_cross_correlation 2 (fun _ => 7) (fun _ => 7)
        ∧ calculate_normalized_cross_correlation 2 (fun _ => 7) (fun _ => 7) ≤ 1) :=
  ⟨by norm_num,
   (c4_ncc_range_and_silence 2 (fun _ => 7) (fun _ => 7) (by norm_num)).1⟩

/-- C4 counterexample: two identical ALL-SILENT segments (all samples
zero) give correlation exactly 0, not a value near 1 — the claim's
"both-silent segments return near-1 but not exactly 1" fails on the
code; the 0.9999 value is returned only for identical NON-silent
segments. -/
theorem c4_counterexample :
    calculate_normalized_cross_correlation 4 (fun _ => 0) (fun _ => 0) = 0 := by
  have hid : segIdenticalUpTo 4 (fun _ => 0) (fun _ => 0) := fun i _ => rfl
  have he : rawEnergy 4 (fun _ => 0) = 0 := by simp [rawEnergy]
  unfold calculate_normalized_cross_correlation
  rw [if_neg (by norm_num : ¬((4 : Nat) = 0)), if_pos hid,
      if_pos (show rawEnergy 4 (fun _ => 0) < 100 * ((4 : Nat) : ℝ) by
        rw [he]; norm_num)]

/-! Section: WSOLA time-scale modifier (src/MusicApp.c, src/const.h `WSOLA_State`)

C `int` and `long long` fields are modelled as `Int` (no overflow is
relevant to the claims).  The sample arrays (`input_buffer_ring`,
`analysis_window_function`, `output_overlap_add_buffer`) are modelled as
total functions.  C `%` on ints is `Int.tmod`; every division in the
embedded code has nonnegative operands in the states of interest, where
Lean's `Int` division and C truncated division agree.

The result of `find_best_match_segment` (a correlation value and a
chosen offset) is supplied per loop iteration by an explicit argument
(`SearchResult` oracle): that function keeps C `static` locals and its
float-valued scoring, covered separately through
`calculate_normalized_cross_correlation`, and its return value provably
does not influence the ring-buffer bookkeeping (the discards below
depend only on `next_ideal_input_frame_start_sample_offset`,
`input_ring_buffer_stream_start_offset` and `input_buffer_content`). -/

/-- Source `WSOLA_State` from src/const.h (scratch buffer
`current_synthesis_segment` is recomputed, not stored). -/
structure WState where
  sample_rate : Int
  num_channels : Int
  current_speed_factor : ℚ
  analysis_frame_samples : Int
  overlap_samples : Int
  synthesis_hop_samples : Int
  analysis_hop_samples : Int
  search_window_samples : Int
  analysis_window_function : Nat → Int
  input_buffer_ring : Int → Int
  input_buffer_capacity : Int
  input_buffer_write_pos : Int
  input_buffer_read_pos : Int
  input_buffer_content : Int
  output_overlap_add_buffer : Nat → Int
  total_input_samples_processed : Int
  total_output_samples_generated : Int
  next_ideal_input_frame_start_sample_offset : Int
  input_ring_buffer_stream_start_offset : Int

/-- The buffer-full branch of `wsola_add_input_to_ring_buffer`:
overwrite the oldest sample by advancing the read position and
`input_ring_buffer_stream_start_offset` and dropping one content
sample. -/
def overwriteOldest (st : WState) : WState :=
  { st with
    input_buffer_read_pos :=
      (st.input_buffer_read_pos + 1).tmod st.input_buffer_capacity,
    input_ring_buffer_stream_start_offset :=
      st.input_ring_buffer_stream_start_offset + 1,
    input_buffer_content := st.input_buffer_content - 1 }

/-- Store one sample at the write position and advance it. -/
def writeSample (st : WState) (x : Int) : WState :=
  { st with
    input_buffer_ring :=
      fun i => if i = st.input_buffer_write_pos then x else st.input_buffer_ring i,
    input_buffer_write_pos :=
      (st.input_buffer_write_pos + 1).tmod st.input_buffer_capacity,
    input_buffer_content := st.input_buffer_content + 1 }

/-- Per-sample body of the `wsola_add_input_to_ring_buffer` loop. -/
def wsola_add_one (st : WState) (x : Int) : WState :=
  writeSample
    (if st.input_buffer_content ≥ st.input_buffer_capacity then overwriteOldest st
     else st) x

/-- Source `wsola_add_input_to_ring_buffer`: push every input sample in order
(the C guard for NULL/empty input is the empty fold). -/
def wsola_add_input_to_ring_buffer (st : WState) (input : List Int) : WState :=
  input.foldl wsola_add_one st

/-- Source `get_segment_from_ring_buffer`: `none` when the requested length is
nonpositive or exceeds the buffered content, otherwise the `length`
samples starting at `start_index_in_ring`, read modulo the capacity. -/
def get_segment_from_ring_buffer (st : WState) (start len : Int) :
    Option (List Int) :=
  if len ≤ 0 then none
  else if len > st.input_buffer_content then none
  else some ((List.range len.toNat).map fun i =>
    st.input_buffer_ring ((start + (i : Int)).tmod st.input_buffer_capacity))

/-- Q15 windowing `(short)(((long long)sample * window[i]) >> 15)`:
arithmetic right shift is floor division by 2^15, the short cast is
`wrap16`. -/
def applyWindowQ15 (w : Nat → Int) (seg : List Int) : List Int :=
  seg.mapIdx fun i a => wrap16 ((a * w i).fdiv 32768)

/-- The clamped minimum retainable absolute offset used by the in-loop
discard: `next_ideal - search_window - overlap`, clamped at 0. -/
def inloopMinRetainable (st : WState) : Int :=
  if st.next_ideal_input_frame_start_sample_offset - st.search_window_samples
      - st.overlap_samples < 0 then 0
  else st.next_ideal_input_frame_start_sample_offset - st.search_window_samples
      - st.overlap_samples

/-- Source `samples_to_discard` as first computed by the in-loop discard (0
when the buffer is empty). -/
def inloopDiscardRaw (st : WState) : Int :=
  if st.input_buffer_content > 0 then
    inloopMinRetainable st - st.input_ring_buffer_stream_start_offset
  else 0

/-- The in-loop discard amount after clamping to the buffered content. -/
def inloopDiscardAmount (st : WState) : Int :=
  if inloopDiscardRaw st > 0 then
    (if inloopDiscardRaw st > st.input_buffer_content then st.input_buffer_content
     else inloopDiscardRaw st)
  else 0

/-- The in-loop ring-buffer discard at the end of each synthesis
iteration (src/MusicApp.c lines 1933-1957). -/
def wsola_inloop_discard (st : WState) : WState :=
  if inloopDiscardRaw st > 0 then
    { st with
      input_buffer_read_pos :=
        (st.input_buffer_read_pos + inloopDiscardAmount st).tmod
          st.input_buffer_capacity,
      input_buffer_content := st.input_buffer_content - inloopDiscardAmount st,
      input_ring_buffer_stream_start_offset :=
        st.input_ring_buffer_stream_start_offset + inloopDiscardAmount st }
  else st

/-- Minimum retainable offset of the end-of-call conservative discard:
`next_ideal - search_window`, clamped at 0. -/
def conservativeMinRetainable (st : WState) : Int :=
  if st.next_ideal_input_frame_start_sample_offset - st.search_window_samples
      < 0 then 0
  else st.next_ideal_input_frame_start_sample_offset - st.search_window_samples

/-- Source `samples_to_discard` of the conservative discard before capping. -/
def conservativeDiscardRaw (st : WState) : Int :=
  conservativeMinRetainable st - st.input_ring_buffer_stream_start_offset

/-- The conservative discard amount capped at half the buffered
content. -/
def conservativeDiscardCapped (st : WState) : Int :=
  if conservativeDiscardRaw st > st.input_buffer_content / 2 then
    st.input_buffer_content / 2
  else conservativeDiscardRaw st

/-- The end-of-call conservative ring-buffer management
(src/MusicApp.c lines 1963-2011): discard only when the buffer is
nonempty, something is discardable, and the capped amount reaches half
an analysis hop. -/
def wsola_conservative_discard (st : WState) : WState :=
  if st.input_buffer_content > 0 then
    if conservativeDiscardRaw st > 0 then
      if conservativeDiscardCapped st ≥ st.analysis_hop_samples / 2 then
        { st with
          input_buffer_read_pos :=
            (st.input_buffer_read_pos + conservativeDiscardCapped st).tmod
              st.input_buffer_capacity,
          input_buffer_content :=
            st.input_buffer_content - conservativeDiscardCapped st,
          input_ring_buffer_stream_start_offset :=
            st.input_ring_buffer_stream_start_offset
              + conservativeDiscardCapped st }
      else st
    else st
  else st

/-- Source `LLONG_MAX`: the error sentinel of `find_best_match_segment` is
`-LLONG_MAX`. -/
def LLONG_MAX : Int := 9223372036854775807

/-- The correlation value and chosen offset returned by one call of
`find_best_match_segment`. -/
structure SearchResult where
  corr : Int
  offset : Int

/-- The offset actually used after `wsola_process` post-processes the
search result: error sentinel forces offset 0, and a zero correlation in
the first loop iteration forces offset 0. -/
def adjustedOffset (sr : SearchResult) (iter : Int) : Int :=
  if sr.corr = -LLONG_MAX then 0
  else if sr.corr = 0 ∧ iter ≤ 1 then 0
  else sr.offset

/-- Source `ideal_search_center_ring_idx`: ring index of
`next_ideal_input_frame_start_sample_offset`. -/
def idealSearchCenterRingIdx (st : WState) : Int :=
  (st.next_ideal_input_frame_start_sample_offset
    - st.input_ring_buffer_stream_start_offset
    + st.input_buffer_capacity).tmod st.input_buffer_capacity

/-- Source `actual_synthesis_segment_start_ring_idx` for a chosen offset. -/
def synthesisStartIdx (st : WState) (off : Int) : Int :=
  (idealSearchCenterRingIdx st + off + st.input_buffer_capacity).tmod
    st.input_buffer_capacity

/-- The windowed N-sample synthesis segment extracted at the chosen
offset, written out in terms of the ring contents. -/
def chosenWindowedSegment (sr : SearchResult) (iter : Int) (st : WState) :
    List Int :=
  applyWindowQ15 st.analysis_window_function
    ((List.range st.analysis_frame_samples.toNat).map fun i =>
      st.input_buffer_ring
        ((synthesisStartIdx st (adjustedOffset sr iter) + (i : Int)).tmod
          st.input_buffer_capacity))

/-- One iteration of the `wsola_process` synthesis loop (lines
1836-1957): data-availability guard, segment extraction at the chosen
offset, Q15 windowing, overlap-add emission of `overlap_samples`
samples, tail update, input-pointer advance by
`round(analysis_hop / speed)`, then the in-loop discard.  `none` models
both `break` paths (insufficient data / failed extraction), which leave
the state untouched. -/
def wsola_iteration (sr : SearchResult) (iter : Int) (st : WState) :
    Option (WState × List Int) :=
  if st.input_ring_buffer_stream_start_offset + st.input_buffer_content <
      st.next_ideal_input_frame_start_sample_offset
        + st.search_window_samples + st.analysis_frame_samples then none
  else
    match get_segment_from_ring_buffer st
        (synthesisStartIdx st (adjustedOffset sr iter))
        st.analysis_frame_samples with
    | none => none
    | some seg =>
      some (wsola_inloop_discard
        { st with
          output_overlap_add_buffer :=
            if 0 < st.overlap_samples then
              fun i =>
                if (i : Int) < st.overlap_samples then
                  (applyWindowQ15 st.analysis_window_function seg).getD
                    (st.overlap_samples.toNat + i) 0
                else st.output_overlap_add_buffer i
            else st.output_overlap_add_buffer,
          next_ideal_input_frame_start_sample_offset :=
            st.next_ideal_input_frame_start_sample_offset +
              roundQ ((st.analysis_hop_samples : ℚ) / st.current_speed_factor),
          total_input_samples_processed :=
            st.next_ideal_input_frame_start_sample_offset +
              roundQ ((st.analysis_hop_samples : ℚ) / st.current_speed_factor) },
        (List.range st.overlap_samples.toNat).map fun i =>
          clamp16 (st.output_overlap_add_buffer i +
            (applyWindowQ15 st.analysis_window_function seg).getD i 0))

/-- The synthesis `while` loop of `wsola_process`, with fuel for
termination.  Each completing iteration emits `overlap_samples` (at
least 1 in any state produced by `wsola_init`) samples, so fuel
`maxOut.toNat + 1` never runs out. -/
def wsola_loop (oracle : Nat → SearchResult) :
    Nat → Nat → WState → Int → List Int → WState × List Int
  | 0, _, st, _, written => (st, written)
  | fuel + 1, iter, st, maxOut, written =>
    if (written.length : Int) + st.overlap_samples ≤ maxOut then
      match wsola_iteration (oracle iter) ((iter : Int) + 1) st with
      | none => (st, written)
      | some p => wsola_loop oracle fuel (iter + 1) p.1 maxOut (written ++ p.2)
    else (st, written)

/-- Source `wsola_process`: push the input block into the ring buffer, run the
synthesis loop, apply the conservative end-of-call discard, and add the
emitted sample count to `total_output_samples_generated`. -/
def wsola_process (oracle : Nat → SearchResult) (st : WState)
    (input : List Int) (maxOut : Int) : WState × List Int :=
  if maxOut ≤ 0 then (st, [])
  else
    ((fun r => ({ wsola_conservative_discard r.1 with
        total_output_samples_generated :=
          (wsola_conservative_discard r.1).total_output_samples_generated
            + r.2.length }, r.2))
      (wsola_loop oracle (maxOut.toNat + 1) 0
        (wsola_add_input_to_ring_buffer st input) maxOut []))

theorem wsola_add_one_bounds (st : WState) (x : Int)
    (h0 : 0 ≤ st.input_buffer_content)
    (h1 : st.input_buffer_content ≤ st.input_buffer_capacity) :
    0 ≤ (wsola_add_one st x).input_buffer_content
    ∧ (wsola_add_one st x).input_buffer_content
        ≤ (wsola_add_one st x).input_buffer_capacity
    ∧ (wsola_add_one st x).input_buffer_capacity = st.input_buffer_capacity
    ∧ st.input_ring_buffer_stream_start_offset
        ≤ (wsola_add_one st x).input_ring_buffer_stream_start_offset := by
  unfold wsola_add_one writeSample overwriteOldest
  split_ifs with hfull
  · dsimp only
    omega
  · dsimp only
    omega

theorem wsola_add_input_bounds (input : List Int) (st : WState)
    (h0 : 0 ≤ st.input_buffer_content)
    (h1 : st.input_buffer_content ≤ st.input_buffer_capacity) :
    0 ≤ (wsola_add_input_to_ring_buffer st input).input_buffer_content
    ∧ (wsola_add_input_to_ring_buffer st input).input_buffer_content
        ≤ (wsola_add_input_to_ring_buffer st input).input_buffer_capacity
    ∧ (wsola_add_input_to_ring_buffer st input).input_buffer_capacity
        = st.input_buffer_capacity
    ∧ st.input_ring_buffer_stream_start_offset
        ≤ (wsola_add_input_to_ring_buffer st input).input_ring_buffer_stream_start_offset := by
  induction input generalizing st with
  | nil => exact ⟨h0, h1, rfl, le_refl _⟩
  | cons x xs ih =>
    have hstep := wsola_add_one_bounds st x h0 h1
    have hrec := ih (wsola_add_one st x) hstep.1 (hstep.2.2.1 ▸ hstep.2.1)
    refine ⟨hrec.1, hrec.2.1, ?_, ?_⟩
    · rw [wsola_add_input_to_ring_buffer, List.foldl_cons]
      rw [wsola_add_input_to_ring_buffer] at hrec
      rw [hrec.2.2.1, hstep.2.2.1]
    · rw [wsola_add_input_to_ring_buffer, List.foldl_cons]
      rw [wsola_add_input_to_ring_buffer] at hrec
      exact le_trans hstep.2.2.2 hrec.2.2.2

theorem wsola_inloop_discard_bounds (st : WState)
    (h0 : 0 ≤ st.input_buffer_content)
    (h1 : st.input_buffer_content ≤ st.input_buffer_capacity) :
    0 ≤ (wsola_inloop_discard st).input_buffer_content
    ∧ (wsola_inloop_discard st).input_buffer_content
        ≤ (wsola_inloop_discard st).input_buffer_capacity
    ∧ (wsola_inloop_discard st).input_buffer_capacity = st.input_buffer_capacity
    ∧ st.input_ring_buffer_stream_start_offset
        ≤ (wsola_inloop_discard st).input_ring_buffer_stream_start_offset := by
  unfold wsola_inloop_discard inloopDiscardAmount inloopDiscardRaw
    inloopMinRetainable
  split_ifs <;> (try dsimp only) <;> omega

theorem wsola_conservative_discard_bounds (st : WState)
    (h0 : 0 ≤ st.input_buffer_content)
    (h1 : st.input_buffer_content ≤ st.input_buffer_capacity) :
    0 ≤ (wsola_conservative_discard st).input_buffer_content
    ∧ (wsola_conservative_discard st).input_buffer_content
        ≤ (wsola_conservative_discard st).input_buffer_capacity
    ∧ (wsola_conservative_discard st).input_buffer_capacity
        = st.input_buffer_capacity
    ∧ st.input_ring_buffer_stream_start_offset
        ≤ (wsola_conservative_discard st).input_ring_buffer_stream_start_offset := by
  unfold wsola_conservative_discard conservativeDiscardCapped
    conservativeDiscardRaw conservativeMinRetainable
  split_ifs <;> (try dsimp only) <;> omega

theorem wsola_iteration_bounds (sr : SearchResult) (iter : Int) (st : WState)
    (p : WState × List Int) (hp : wsola_iteration sr iter st = some p)
    (h0 : 0 ≤ st.input_buffer_content)
    (h1 : st.input_buffer_content ≤ st.input_buffer_capacity) :
    0 ≤ p.1.input_buffer_content
    ∧ p.1.input_buffer_content ≤ p.1.input_buffer_capacity
    ∧ p.1.input_buffer_capacity = st.input_buffer_capacity
    ∧ st.input_ring_buffer_stream_start_offset
        ≤ p.1.input_ring_buffer_stream_start_offset := by
  unfold wsola_iteration at hp
  by_cases hg : st.input_ring_buffer_stream_start_offset
      + st.input_buffer_content <
      st.next_ideal_input_frame_start_sample_offset
        + st.search_window_samples + st.analysis_frame_samples
  · rw [if_pos hg] at hp
    exact absurd hp (by simp)
  · rw [if_neg hg] at hp
    cases hseg : get_segment_from_ring_buffer st
        (synthesisStartIdx st (adjustedOffset sr iter))
        st.analysis_frame_samples with
    | none => rw [hseg] at hp; exact absurd hp (by simp)
    | some seg =>
      rw [hseg] at hp
      have hXp := Option.some.inj hp
      rw [← hXp]
      exact wsola_inloop_discard_bounds _ h0 h1

theorem wsola_loop_bounds (oracle : Nat → SearchResult) (fuel iter : Nat)
    (st : WState) (maxOut : Int) (written : List Int)
    (h0 : 0 ≤ st.input_buffer_content)
    (h1 : st.input_buffer_content ≤ st.input_buffer_capacity) :
    0 ≤ (wsola_loop oracle fuel iter st maxOut written).1.input_buffer_content
    ∧ (wsola_loop oracle fuel iter st maxOut written).1.input_buffer_content
        ≤ (wsola_loop oracle fuel iter st maxOut written).1.input_buffer_capacity
    ∧ (wsola_loop oracle fuel iter st maxOut written).1.input_buffer_capacity
        = st.input_buffer_capacity
    ∧ st.input_ring_buffer_stream_start_offset
        ≤ (wsola_loop oracle fuel iter st maxOut written).1.input_ring_buffer_stream_start_offset := by
  induction fuel generalizing iter st written with
  | zero => exact ⟨h0, h1, rfl, le_refl _⟩
  | succ n ih =>
    rw [wsola_loop]
    split_ifs
    · cases hit : wsola_iteration (oracle iter) ((iter : Int) + 1) st with
      | none => exact ⟨h0, h1, rfl, le_refl _⟩
      | some p =>
        have hb := wsola_iteration_bounds (oracle iter) ((iter : Int) + 1) st p
          hit h0 h1
        have hrec := ih (iter + 1) p.1 (written ++ p.2) hb.1 (hb.2.2.1 ▸ hb.2.1)
        exact ⟨hrec.1, hrec.2.1, hrec.2.2.1.trans hb.2.2.1,
          le_trans hb.2.2.2 hrec.2.2.2⟩
    · exact ⟨h0, h1, rfl, le_refl _⟩

/-- C6: after pushing input samples, after either discard operation, and
after any complete `wsola_process` call, `input_buffer_content ≤
input_buffer_capacity` holds and
`input_ring_buffer_stream_start_offset` has not decreased (assuming the
basic well-formedness `0 ≤ content ≤ capacity` beforehand, which holds
from `wsola_init` on). -/
theorem c6_ring_invariants (st : WState) (input : List Int)
    (oracle : Nat → SearchResult) (maxOut : Int)
    (h0 : 0 ≤ st.input_buffer_content)
    (h1 : st.input_buffer_content ≤ st.input_buffer_capacity) :
    ((wsola_add_input_to_ring_buffer st input).input_buffer_content
        ≤ (wsola_add_input_to_ring_buffer st input).input_buffer_capacity
      ∧ st.input_ring_buffer_stream_start_offset
        ≤ (wsola_add_input_to_ring_buffer st input).input_ring_buffer_stream_start_offset)
    ∧ ((wsola_inloop_discard st).input_buffer_content
        ≤ (wsola_inloop_discard st).input_buffer_capacity
      ∧ st.input_ring_buffer_stream_start_offset
        ≤ (wsola_inloop_discard st).input_ring_buffer_stream_start_offset)
    ∧ ((wsola_conservative_discard st).input_buffer_content
        ≤ (wsola_conservative_discard st).input_buffer_capacity
      ∧ st.input_ring_buffer_stream_start_offset
        ≤ (wsola_conservative_discard st).input_ring_buffer_stream_start_offset)
    ∧ ((wsola_process oracle st input maxOut).1.input_buffer_content
        ≤ (wsola_process oracle st input maxOut).1.input_buffer_capacity
      ∧ st.input_ring_buffer_stream_start_offset
        ≤ (wsola_process oracle st input maxOut).1.input_ring_buffer_stream_start_offset) := by
  have hadd := wsola_add_input_bounds input st h0 h1
  have hin := wsola_inloop_discard_bounds st h0 h1
  have hcons := wsola_conservative_discard_bounds st h0 h1
  refine ⟨⟨hadd.2.1, hadd.2.2.2⟩, ⟨hin.2.1, hin.2.2.2⟩,
    ⟨hcons.2.1, hcons.2.2.2⟩, ?_⟩
  unfold wsola_process
  split_ifs
  · exact ⟨h1, le_refl _⟩
  · dsimp only
    have hloop := wsola_loop_bounds oracle (maxOut.toNat + 1) 0
      (wsola_add_input_to_ring_buffer st input) maxOut [] hadd.1
      (hadd.2.2.1 ▸ hadd.2.1)
    have hfin := wsola_conservative_discard_bounds
      (wsola_loop oracle (maxOut.toNat + 1) 0
        (wsola_add_input_to_ring_buffer st input) maxOut []).1
      hloop.1 (hloop.2.2.1 ▸ hloop.2.1)
    exact ⟨hfin.2.1, le_trans hadd.2.2.2 (le_trans hloop.2.2.2 hfin.2.2.2)⟩

/-- Witness for C6 at a concrete small state, block and oracle. -/
theorem c6_witness :
    (0 : Int) ≤ 0
    ∧ ((wsola_inloop_discard
        { sample_rate := 8000, num_channels := 1, current_speed_factor := 1,
          analysis_frame_samples := 4, overlap_samples := 2,
          synthesis_hop_samples := 2, analysis_hop_samples := 2,
          search_window_samples := 1,
          analysis_window_function := fun _ => 32767,
          input_buffer_ring := fun _ => 0, input_buffer_capacity := 16,
          input_buffer_write_pos := 0, input_buffer_read_pos := 0,
          input_buffer_content := 0,
          output_overlap_add_buffer := fun _ => 0,
          total_input_samples_processed := 0,
          total_output_samples_generated := 0,
          next_ideal_input_frame_start_sample_offset := 0,
          input_ring_buffer_stream_start_offset := 0 }).input_buffer_content
      ≤ (wsola_inloop_discard
        { sample_rate := 8000, num_channels := 1, current_speed_factor := 1,
          analysis_frame_samples := 4, overlap_samples := 2,
          synthesis_hop_samples := 2, analysis_hop_samples := 2,
          search_window_samples := 1,
          analysis_window_function := fun _ => 32767,
          input_buffer_ring := fun _ => 0, input_buffer_capacity := 16,
          input_buffer_write_pos := 0, input_buffer_read_pos := 0,
          input_buffer_content := 0,
          output_overlap_add_buffer := fun _ => 0,
          total_input_samples_processed := 0,
          total_output_samples_generated := 0,
          next_ideal_input_frame_start_sample_offset := 0,
          input_ring_buffer_stream_start_offset := 0 }).input_buffer_capacity) :=
  ⟨le_refl 0,
   ((c6_ring_invariants
      { sample_rate := 8000, num_channels := 1, current_speed_factor := 1,
        analysis_frame_samples := 4, overlap_samples := 2,
        synthesis_hop_samples := 2, analysis_hop_samples := 2,
        search_window_samples := 1,
        analysis_window_function := fun _ => 32767,
        input_buffer_ring := fun _ => 0, input_buffer_capacity := 16,
        input_buffer_write_pos := 0, input_buffer_read_pos := 0,
        input_buffer_content := 0,
        output_overlap_add_buffer := fun _ => 0,
        total_input_samples_processed := 0,
        total_output_samples_generated := 0,
        next_ideal_input_frame_start_sample_offset := 0,
        input_ring_buffer_stream_start_offset := 0 }
      [3, -4, 5] (fun _ => ⟨0, 0⟩) 10 (by decide) (by decide)).2.1).1⟩

/-- C5 (amended): the end-of-call conservative discard reclaims at most
half of the content buffered at the moment of the discard, and the
in-loop discard reclaims at most the buffered content — but only the
conservative discard enforces the half cap; the in-loop discard has no
such cap (see the counterexample). -/
theorem c5_discard_caps (st : WState) (h0 : 0 ≤ st.input_buffer_content) :
    st.input_buffer_content
        - (wsola_conservative_discard st).input_buffer_content
      ≤ st.input_buffer_content / 2
    ∧ st.input_buffer_content - (wsola_inloop_discard st).input_buffer_content
      ≤ st.input_buffer_content := by
  constructor
  · unfold wsola_conservative_discard conservativeDiscardCapped
      conservativeDiscardRaw conservativeMinRetainable
    split_ifs <;> (try dsimp only) <;> omega
  · unfold wsola_inloop_discard inloopDiscardAmount inloopDiscardRaw
      inloopMinRetainable
    split_ifs <;> (try dsimp only) <;> omega

/-- The WSOLA state reached in iteration 9 of the synthesis loop on the
first `wsola_process` call after `wsola_init(44100 Hz, mono, speed 0.5,
30 ms frame, 50% overlap, 5 ms search)` with a full 12288-sample input
block (N = 1323, N_o = 661, H_a = 662, S_w = 220, capacity = 15075,
hop = round(662/0.5) = 1324), just after the input pointer advance and
before the in-loop discard of that iteration. -/
def c5TraceState : WState :=
  { sample_rate := 44100, num_channels := 1, current_speed_factor := 1/2,
    analysis_frame_samples := 1323, overlap_samples := 661,
    synthesis_hop_samples := 1324, analysis_hop_samples := 662,
    search_window_samples := 220,
    analysis_window_function := fun _ => 0,
    input_buffer_ring := fun _ => 0,
    input_buffer_capacity := 15075,
    input_buffer_write_pos := 12288, input_buffer_read_pos := 9711,
    input_buffer_content := 2577,
    output_overlap_add_buffer := fun _ => 0,
    total_input_samples_processed := 11916,
    total_output_samples_generated := 5288,
    next_ideal_input_frame_start_sample_offset := 11916,
    input_ring_buffer_stream_start_offset := 9711 }

/-- C5 counterexample: at `c5TraceState` the in-loop discard reclaims
1324 samples while only 2577 are buffered — strictly MORE than half of
the buffered content, refuting "every single discard operation reclaims
at most half". -/
theorem c5_counterexample :
    c5TraceState.input_buffer_content
        - (wsola_inloop_discard c5TraceState).input_buffer_content = 1324
    ∧ c5TraceState.input_buffer_content = 2577
    ∧ 2 * (c5TraceState.input_buffer_content
        - (wsola_inloop_discard c5TraceState).input_buffer_content)
      > c5TraceState.input_buffer_content := by
  refine ⟨?_, rfl, ?_⟩ <;>
    simp only [c5TraceState, wsola_inloop_discard, inloopDiscardAmount,
      inloopDiscardRaw, inloopMinRetainable] <;> decide

/-- Witness for C5's amended theorem at the same concrete state. -/
theorem c5_witness :
    (0 : Int) ≤ c5TraceState.input_buffer_content
    ∧ c5TraceState.input_buffer_content
        - (wsola_conservative_discard c5TraceState).input_buffer_content
      ≤ c5TraceState.input_buffer_content / 2 :=
  ⟨by decide, (c5_discard_caps c5TraceState (by decide)).1⟩

theorem range_map_getD (n : Nat) (f : Nat → Int) (i : Nat) (h : i < n) :
    ((List.range n).map f).getD i 0 = f i := by
  rw [List.getD_eq_getElem?_getD, List.getElem?_map, List.getElem?_range h]
  rfl

theorem wsola_inloop_discard_tail (s : WState) :
    (wsola_inloop_discard s).output_overlap_add_buffer
      = s.output_overlap_add_buffer := by
  unfold wsola_inloop_discard
  split_ifs <;> rfl

/-- C3: in every synthesis iteration that successfully extracts an
N-sample segment, the `overlap_samples` samples emitted are exactly the
element-wise sums of the previous `output_overlap_add_buffer` and the
first `overlap_samples` samples of the windowed segment, each clamped to
[-32768, 32767]; and afterwards the new `output_overlap_add_buffer`
holds the second half (samples `overlap_samples ..
2*overlap_samples`) of the windowed segment. -/
theorem c3_overlap_add_step (sr : SearchResult) (iter : Int) (st : WState)
    (h : (wsola_iteration sr iter st).isSome = true) :
    ((wsola_iteration sr iter st).getD (st, [])).2.length
      = st.overlap_samples.toNat
    ∧ (∀ i < st.overlap_samples.toNat,
        ((wsola_iteration sr iter st).getD (st, [])).2.getD i 0
          = clamp16 (st.output_overlap_add_buffer i
              + (chosenWindowedSegment sr iter st).getD i 0))
    ∧ (0 < st.overlap_samples → ∀ i < st.overlap_samples.toNat,
        ((wsola_iteration sr iter st).getD (st, [])).1.output_overlap_add_buffer i
          = (chosenWindowedSegment sr iter st).getD
              (st.overlap_samples.toNat + i) 0) := by
  obtain ⟨p, hp⟩ := Option.isSome_iff_exists.mp h
  rw [hp]
  simp only [Option.getD_some]
  unfold wsola_iteration at hp
  by_cases hg : st.input_ring_buffer_stream_start_offset
      + st.input_buffer_content <
      st.next_ideal_input_frame_start_sample_offset
        + st.search_window_samples + st.analysis_frame_samples
  · rw [if_pos hg] at hp
    exact absurd hp (by simp)
  · rw [if_neg hg] at hp
    cases hseg : get_segment_from_ring_buffer st
        (synthesisStartIdx st (adjustedOffset sr iter))
        st.analysis_frame_samples with
    | none => rw [hseg] at hp; exact absurd hp (by simp)
    | some seg =>
      rw [hseg] at hp
      have hXp := Option.some.inj hp
      rw [← hXp]
      have hsegval : seg = (List.range st.analysis_frame_samples.toNat).map
          fun i => st.input_buffer_ring
            ((synthesisStartIdx st (adjustedOffset sr iter) + (i : Int)).tmod
              st.input_buffer_capacity) := by
        unfold get_segment_from_ring_buffer at hseg
        split_ifs at hseg
        exact (Option.some.inj hseg).symm
      have hw : applyWindowQ15 st.analysis_window_function seg
          = chosenWindowedSegment sr iter st := by
        rw [hsegval]; rfl
      dsimp only
      refine ⟨?_, ?_, ?_⟩
      · rw [List.length_map, List.length_range]
      · intro i hi
        rw [range_map_getD _ _ i hi, hw]
      · intro hpos i hi
        rw [wsola_inloop_discard_tail]
        dsimp only
        rw [if_pos hpos, if_pos (by omega : (i : Int) < st.overlap_samples), hw]

/-- A concrete well-formed WSOLA state on which one synthesis iteration
succeeds: capacity 16, N = 4, N_o = 2, S_w = 0, 8 buffered samples,
window 32768-like Q15 values, ring holding 1..8. -/
def c3DemoState : WState :=
  { sample_rate := 8000, num_channels := 1, current_speed_factor := 2,
    analysis_frame_samples := 4, overlap_samples := 2,
    synthesis_hop_samples := 1, analysis_hop_samples := 2,
    search_window_samples := 0,
    analysis_window_function := fun i => 8192 * (i : Int),
    input_buffer_ring := fun i => 100 * i + 7,
    input_buffer_capacity := 16,
    input_buffer_write_pos := 8, input_buffer_read_pos := 0,
    input_buffer_content := 8,
    output_overlap_add_buffer := fun i => 3 * (i : Int) + 1,
    total_input_samples_processed := 0,
    total_output_samples_generated := 0,
    next_ideal_input_frame_start_sample_offset := 0,
    input_ring_buffer_stream_start_offset := 0 }

/-- Witness for C3 at `c3DemoState` with a concrete search result. -/
theorem c3_witness :
    ((wsola_iteration ⟨500000, 1⟩ 1 c3DemoState).isSome = true)
    ∧ ((wsola_iteration ⟨500000, 1⟩ 1 c3DemoState).getD
        (c3DemoState, [])).2.length = c3DemoState.overlap_samples.toNat :=
  ⟨by decide,
   (c3_overlap_add_step ⟨500000, 1⟩ 1 c3DemoState (by decide)).1⟩

/-! Section: Main-loop speed-change stage (src/MusicApp.c lines 942-1065)

The stage receives the (possibly EQ-processed) block and produces the
samples handed onward to the device-write code, updating the WSOLA
state.  `useWsolaFlag` stands for `use_wsola_for_speed_control` together
with the S16_LE-mono format conditions; the `fabs(speed - 1.0) < 1e-6`
double comparison is exact over ℚ for the speed set
{0.5, 1.0, 1.5, 2.0}. -/

/-- The simple pitch-changing resampler (lines 1036-1048): output
sample `k` is the source sample at `floor(k * speed)` (the cursor after
`k` exact increments; for the supported speed factors `k * speed` is
exactly representable in double).  Generation stops at the first cursor
beyond the source, which for a monotone cursor equals dropping all
later candidates. -/
def naiveResample (speed : ℚ) (src : List Int) : List Int :=
  (List.range (roundQ ((src.length : ℚ) / speed)).toNat).filterMap fun k =>
    if ⌊(k : ℚ) * speed⌋ < (src.length : Int) then
      some (src.getD (⌊(k : ℚ) * speed⌋).toNat 0)
    else none

/-- The speed-change stage of one main-loop iteration: WSOLA when
enabled, a state-present WSOLA handle, and speed ≠ 1.0 (within 1e-6);
plain pass-through at speed 1.0; the naive resampler otherwise, and
also as fallback when WSOLA produced 0 samples for this chunk. -/
def timeScaleStage (oracle : Nat → SearchResult) (useWsolaFlag : Bool)
    (speed : ℚ) (wsolaOpt : Option WState) (block : List Int) :
    List Int × Option WState :=
  match wsolaOpt with
  | some w =>
    if useWsolaFlag ∧ |speed - 1| ≥ 1/1000000 then
      (fun r =>
        if 0 < r.2.length then (r.2, some r.1)
        else (naiveResample speed block, some r.1))
      (wsola_process oracle w block
        (2 * (block.length : Int) + w.analysis_frame_samples))
    else
      if |speed - 1| < 1/1000000 then (block, some w)
      else (naiveResample speed block, some w)
  | none =>
    if |speed - 1| < 1/1000000 then (block, none)
    else (naiveResample speed block, none)

/-- C1: while the speed factor equals 1.0 the time-scale stage hands the
block onward unmodified, sample for sample, for every block, every
WSOLA-state handle and every search behaviour. -/
theorem c1_speed1_passthrough (oracle : Nat → SearchResult)
    (useWsolaFlag : Bool) (wsolaOpt : Option WState) (block : List Int) :
    (timeScaleStage oracle useWsolaFlag 1 wsolaOpt block).1 = block := by
  cases wsolaOpt with
  | none =>
    unfold timeScaleStage
    dsimp only
    rw [if_pos (by norm_num)]
  | some w =>
    unfold timeScaleStage
    dsimp only
    rw [if_neg (by rintro ⟨-, hb⟩; norm_num at hb), if_pos (by norm_num)]

/-- C2 (amended): while the speed factor equals 1.0 the WSOLA stage is
skipped entirely — the input samples are NOT pushed into the WSOLA ring
buffer and no offset counter advances; the WSOLA state object is
returned untouched. -/
theorem c2_speed1_state_untouched (oracle : Nat → SearchResult)
    (useWsolaFlag : Bool) (wsolaOpt : Option WState) (block : List Int) :
    (timeScaleStage oracle useWsolaFlag 1 wsolaOpt block).2 = wsolaOpt := by
  cases wsolaOpt with
  | none =>
    unfold timeScaleStage
    dsimp only
    rw [if_pos (by norm_num)]
  | some w =>
    unfold timeScaleStage
    dsimp only
    rw [if_neg (by rintro ⟨-, hb⟩; norm_num at hb), if_pos (by norm_num)]

/-- A fresh WSOLA state (as produced by `wsola_init` at 8000 Hz mono,
tiny sizes) with an empty ring buffer. -/
def c2FreshState : WState :=
  { sample_rate := 8000, num_channels := 1, current_speed_factor := 1,
    analysis_frame_samples := 4, overlap_samples := 2,
    synthesis_hop_samples := 2, analysis_hop_samples := 2,
    search_window_samples := 1,
    analysis_window_function := fun _ => 16384,
    input_buffer_ring := fun _ => 0,
    input_buffer_capacity := 64,
    input_buffer_write_pos := 0, input_buffer_read_pos := 0,
    input_buffer_content := 0,
    output_overlap_add_buffer := fun _ => 0,
    total_input_samples_processed := 0,
    total_output_samples_generated := 0,
    next_ideal_input_frame_start_sample_offset := 0,
    input_ring_buffer_stream_start_offset := 0 }

/-- C2 counterexample: processing the block `[1, 2, 3]` at speed 1.0
leaves the WSOLA ring buffer empty (content still 0), while pushing the
samples — as the claim asserts — would have left 3 samples buffered. -/
theorem c2_counterexample :
    (timeScaleStage (fun _ => ⟨0, 0⟩) true 1 (some c2FreshState) [1, 2, 3]).2
      = some c2FreshState
    ∧ c2FreshState.input_buffer_content = 0
    ∧ (wsola_add_input_to_ring_buffer c2FreshState [1, 2, 3]).input_buffer_content
      = 3 := by
  refine ⟨?_, rfl, by decide⟩
  unfold timeScaleStage
  dsimp only
  rw [if_neg (by rintro ⟨-, hb⟩; norm_num at hb), if_pos (by norm_num)]

/-! Section: Device write loop (src/MusicApp.c lines 1146-1168)

One `snd_pcm_writei` attempt returns either a nonnegative frame count,
`-EPIPE` (underrun), or another negative error.  The loop advances the
write pointer by the frames written, on `-EPIPE` calls
`snd_pcm_prepare` and retries the same pointer and count, and on any
other error jumps to `playback_end`.  The device responses are an
explicit trace; the device-consumed frames are accumulated. -/

/-- One `snd_pcm_writei` outcome. -/
inductive AlsaWriteRes where
  | ok (n : Nat)
  | epipe
  | fatal (code : Int)

/-- The write loop: `some (consumed, true)` when all frames were
written, `some (consumed, false)` when a non-EPIPE error aborted
playback, `none` when the response trace ran out with frames pending. -/
def alsaWriteLoop : List AlsaWriteRes → List Int → List Int →
    Option (List Int × Bool)
  | _, [], consumed => some (consumed, true)
  | [], _ :: _, _ => none
  | r :: rs, x :: rem, consumed =>
    match r with
    | .epipe => alsaWriteLoop rs (x :: rem) consumed
    | .fatal _ => some (consumed, false)
    | .ok n => alsaWriteLoop rs ((x :: rem).drop n) (consumed ++ (x :: rem).take n)

theorem alsaWriteLoop_complete (rs : List AlsaWriteRes) :
    ∀ (pending acc c : List Int),
      alsaWriteLoop rs pending acc = some (c, true) → c = acc ++ pending := by
  induction rs with
  | nil =>
    intro pending acc c h
    cases pending with
    | nil =>
      simp only [alsaWriteLoop] at h
      obtain ⟨h1, -⟩ := Prod.mk.injEq .. ▸ Option.some.inj h
      simp [← h1]
    | cons x rem => exact absurd h (by simp [alsaWriteLoop])
  | cons r rs ih =>
    intro pending acc c h
    cases pending with
    | nil =>
      simp only [alsaWriteLoop] at h
      obtain ⟨h1, -⟩ := Prod.mk.injEq .. ▸ Option.some.inj h
      simp [← h1]
    | cons x rem =>
      cases r with
      | epipe => exact ih (x :: rem) acc c h
      | fatal code =>
        simp only [alsaWriteLoop] at h
        obtain ⟨-, h2⟩ := Prod.mk.injEq .. ▸ Option.some.inj h
        exact absurd h2 (by simp)
      | ok n =>
        have := ih ((x :: rem).drop n) (acc ++ (x :: rem).take n) c h
        rw [this, List.append_assoc, List.take_append_drop]

theorem alsaWriteLoop_fatal (rs : List AlsaWriteRes) :
    ∀ (pending acc c : List Int),
      alsaWriteLoop rs pending acc = some (c, false) →
      ∃ k, c = acc ++ pending.take k := by
  induction rs with
  | nil =>
    intro pending acc c h
    cases pending with
    | nil =>
      simp only [alsaWriteLoop] at h
      obtain ⟨-, h2⟩ := Prod.mk.injEq .. ▸ Option.some.inj h
      exact absurd h2 (by simp)
    | cons x rem => exact absurd h (by simp [alsaWriteLoop])
  | cons r rs ih =>
    intro pending acc c h
    cases pending with
    | nil =>
      simp only [alsaWriteLoop] at h
      obtain ⟨-, h2⟩ := Prod.mk.injEq .. ▸ Option.some.inj h
      exact absurd h2 (by simp)
    | cons x rem =>
      cases r with
      | epipe =>
        obtain ⟨k, hk⟩ := ih (x :: rem) acc c h
        exact ⟨k, hk⟩
      | fatal code =>
        simp only [alsaWriteLoop] at h
        obtain ⟨h1, -⟩ := Prod.mk.injEq .. ▸ Option.some.inj h
        exact ⟨0, by simp [← h1]⟩
      | ok n =>
        obtain ⟨k, hk⟩ := ih ((x :: rem).drop n) (acc ++ (x :: rem).take n) c h
        refine ⟨n + k, ?_⟩
        rw [hk, List.append_assoc, ← List.take_add]

/-- C9: an `-EPIPE` (underrun) response leaves the pending frames and
the consumed prefix untouched — the loop retries exactly the same
unwritten data; if the loop completes, the device has received exactly
the stage's frames in order (no sample is dropped); and a non-EPIPE
error aborts the loop (result flag `false`) with the device holding a
prefix of the frames. -/
theorem c9_write_loop (rs : List AlsaWriteRes) (pending c : List Int)
    (b : Bool) (h : alsaWriteLoop rs pending [] = some (c, b)) :
    (∀ (rs2 : List AlsaWriteRes) (p2 acc2 : List Int),
      alsaWriteLoop (AlsaWriteRes.epipe :: rs2) p2 acc2
        = alsaWriteLoop rs2 p2 acc2)
    ∧ (b = true → c = pending)
    ∧ (b = false → ∃ k, c = pending.take k) := by
  refine ⟨?_, ?_, ?_⟩
  · intro rs2 p2 acc2
    cases p2 with
    | nil => simp [alsaWriteLoop]
    | cons x rem => rfl
  · intro hb
    rw [hb] at h
    simpa using alsaWriteLoop_complete rs pending [] c h
  · intro hb
    rw [hb] at h
    obtain ⟨k, hk⟩ := alsaWriteLoop_fatal rs pending [] c h
    exact ⟨k, by simpa using hk⟩

/-- Witness for C9: a trace with a mid-stream underrun followed by a
retry that writes the rest; all five frames reach the device in order. -/
theorem c9_witness :
    alsaWriteLoop [AlsaWriteRes.ok 2, AlsaWriteRes.epipe, AlsaWriteRes.ok 3]
        [10, 20, 30, 40, 50] [] = some ([10, 20, 30, 40, 50], true)
    ∧ (true = true → ([10, 20, 30, 40, 50] : List Int) = [10, 20, 30, 40, 50]) :=
  ⟨by decide,
   (c9_write_loop [AlsaWriteRes.ok 2, AlsaWriteRes.epipe, AlsaWriteRes.ok 3]
      [10, 20, 30, 40, 50] [10, 20, 30, 40, 50] true (by decide)).2.1⟩

end MusicApp
